import Mathlib

/-!
Shallow embedding of the session/broadcast core of the chat room
(`ChatRoom` in the repository's Durable Object source file).

Connections (`WebSocket` objects) are modelled by natural-number
identities.  The registry `this.sessions : Map<WebSocket, Session>` is
modelled as an insertion-ordered list of `Session` records; `Map.set`
on a fresh key appends, `Map.delete` filters, matching JS `Map`
iteration order.  `JSON.stringify` of the four outbound message shapes
is modelled by `serialize`, including JS string escaping and the JS
field order of each object literal.  Wall-clock instants
(`new Date().toISOString()`) are passed in as an explicit `now`
parameter.  Transport send failure (the `catch` around
`session.webSocket.send` in `broadcast`) is modelled by a predicate
`fails : Nat → Bool` on connection identities, true for the
connections whose synchronous send raises during the event reaction.
Direct replies from the message listener (`pong` / `error`) are
modelled as succeeding sends.
-/

/-- A per-connection session, mirroring `interface Session`:
the connection handle (as its identity), the username, and the
`quit` removal-pending flag. -/
structure Session where
  ws : Nat
  username : String
  quit : Bool
deriving DecidableEq, Repr

/-- The four outbound wire shapes, mirroring `ServerMessage =
ChatMessage | UserListMessage | ErrorMessage | PongMessage`.
The `pong` id is optional because `data.id` may be absent
(`undefined`), in which case `JSON.stringify` omits the field. -/
inductive ServerMessage where
  | message (username : String) (text : String) (timestamp : String)
  | userList (users : List String)
  | error (message : String)
  | pong (timestamp : String) (id : Option String) (serverTime : String)
deriving DecidableEq, Repr

/-- Lowercase hex digit, as produced by JS `\u00XX` escapes. -/
def hexDigit (n : Nat) : String :=
  String.singleton (Nat.digitChar n)

/-- JS `JSON.stringify` escaping of a single character inside a
string literal. -/
def jsonEscapeChar (c : Char) : String :=
  if c = '"' then "\\\""
  else if c = '\\' then "\\\\"
  else if c = '\n' then "\\n"
  else if c = '\r' then "\\r"
  else if c = '\t' then "\\t"
  else if c.toNat = 8 then "\\b"
  else if c.toNat = 12 then "\\f"
  else if c.toNat < 32 then
    "\\u00" ++ hexDigit (c.toNat / 16) ++ hexDigit (c.toNat % 16)
  else String.singleton c

/-- JS `JSON.stringify` of a string value. -/
def jsonStr (s : String) : String :=
  "\"" ++ String.join (s.data.map jsonEscapeChar) ++ "\""

/-- Embedding of `JSON.stringify(message)` for the four outbound shapes, with the
field order of the object literals in the source. -/
def serialize : ServerMessage → String
  | .message u t ts =>
      "\x7b\"type\":\"message\",\"username\":" ++ jsonStr u ++
        ",\"text\":" ++ jsonStr t ++ ",\"timestamp\":" ++ jsonStr ts ++ "\x7d"
  | .userList users =>
      "\x7b\"type\":\"userList\",\"users\":[" ++
        String.intercalate "," (users.map jsonStr) ++ "]\x7d"
  | .error m =>
      "\x7b\"type\":\"error\",\"message\":" ++ jsonStr m ++ "\x7d"
  | .pong ts id st =>
      "\x7b\"type\":\"pong\",\"timestamp\":" ++ jsonStr ts ++
        (match id with
          | some i => ",\"id\":" ++ jsonStr i
          | none => "") ++
        ",\"serverTime\":" ++ jsonStr st ++ "\x7d"

/-- One attempted delivery: target connection identity and the exact
payload string handed to `webSocket.send`. -/
abbrev Send := Nat × String

/-- Embeds `ChatRoom.broadcast`: serialize once, first pass sends
`messageStr` to every registered session (marking `quit` on the ones
whose send throws), second pass sweeps every session marked `quit`.
Returns the registry after the sweep and the successful sends in
iteration order. -/
def broadcast (st : List Session) (m : ServerMessage) (fails : Nat → Bool) :
    List Session × List Send :=
  let messageStr := serialize m
  let marked := st.map (fun s => if fails s.ws then { s with quit := true } else s)
  let sends := (st.filter (fun s => !fails s.ws)).map (fun s => (s.ws, messageStr))
  (marked.filter (fun s => !s.quit), sends)

/-- The users list computed by `ChatRoom.broadcastUserList`: usernames
of registered sessions not marked `quit`, in registry order. -/
def rosterOf (st : List Session) : List String :=
  (st.filter (fun s => !s.quit)).map (fun s => s.username)

/-- Embeds `ChatRoom.broadcastUserList`: broadcast a `userList` message
carrying `rosterOf`. -/
def broadcastUserList (st : List Session) (fails : Nat → Bool) :
    List Session × List Send :=
  broadcast st (.userList (rosterOf st)) fails

/-- JS `Map.set`: replace in place if the key is present, else append. -/
def mapSet (st : List Session) (ws : Nat) (s : Session) : List Session :=
  if st.any (fun t => t.ws == ws) then
    st.map (fun t => if t.ws == ws then s else t)
  else st ++ [s]

/-- The inbound frame as seen by the `message` listener.  `binary` is
a non-text frame (`typeof msg.data !== 'string'`); `unparsable raw` is
a text frame on which `JSON.parse` throws; `parsed ty text id` is a
text frame parsed to an object, recording the three properties the
listener reads (`data.type`, `data.text`, `data.id`), each a string or
absent. -/
inductive InboundFrame where
  | binary
  | unparsable (raw : String)
  | parsed (ty : Option String) (text : Option String) (id : Option String)
deriving DecidableEq, Repr

/-- JS truthiness of `data.text` for a string-or-absent value: absent
and the empty string are falsy. -/
def truthy : Option String → Bool
  | some s => !(s == "")
  | none => false

/-- Result of one event reaction: the registry afterward, the sends
performed (in order), and the `ServerMessage` values handed to
`this.broadcast` (in call order). -/
structure StepOut where
  state : List Session
  sends : List Send
  bcasts : List ServerMessage
deriving DecidableEq, Repr

/-- The `message` listener of `ChatRoom.handleSession`: non-text
frames skip the `typeof` guard (nothing happens); a `JSON.parse`
failure reaches the `catch`, which sends a constant `error` reply to
the offending connection; a parsed `message` with truthy `text` is
broadcast with the session's username and a fresh timestamp; a parsed
`ping` gets a direct `pong` reply echoing `data.id`; anything else
falls through silently. -/
def handleMessage (st : List Session) (ws : Nat) (uname : String)
    (fr : InboundFrame) (now : String) (fails : Nat → Bool) : StepOut :=
  match fr with
  | .binary => ⟨st, [], []⟩
  | .unparsable _ =>
      ⟨st, [(ws, serialize (.error "Invalid message format"))], []⟩
  | .parsed ty text id =>
      if (ty == some "message") && truthy text then
        let m := ServerMessage.message uname (text.getD "") now
        let (st', s) := broadcast st m fails
        ⟨st', s, [m]⟩
      else if ty == some "ping" then
        ⟨st, [(ws, serialize (.pong now id now))], []⟩
      else ⟨st, [], []⟩

/-- The admission part of `ChatRoom.handleSession`: store a fresh
session with `quit := false`, broadcast the updated user list, then
broadcast the "joined the chat" notice. -/
def admitSession (st : List Session) (ws : Nat) (uname : String) (now : String)
    (fails : Nat → Bool) : StepOut :=
  let st1 := mapSet st ws { ws := ws, username := uname, quit := false }
  let (st2, s1) := broadcastUserList st1 fails
  let joinMsg : ServerMessage :=
    .message "System" (uname ++ " joined the chat") now
  let (st3, s2) := broadcast st2 joinMsg fails
  ⟨st3, s1 ++ s2, [.userList (rosterOf st1), joinMsg]⟩

/-- Whitespace as recognized by JS `String.prototype.trim()`:
ECMAScript WhiteSpace (TAB, VT, FF, SP, NBSP, ZWNBSP and every
Space_Separator code point: U+1680, U+2000-U+200A, U+202F, U+205F,
U+3000) plus LineTerminator (LF, CR, LS, PS). -/
def isJsWhitespace (c : Char) : Bool :=
  c == ' ' || c == '\t' || c == '\n' || c == '\r' ||
    c.toNat == 11 || c.toNat == 12 || c.toNat == 0xA0 ||
    c.toNat == 0x1680 || (0x2000 ≤ c.toNat && c.toNat ≤ 0x200A) ||
    c.toNat == 0x202F || c.toNat == 0x205F || c.toNat == 0x3000 ||
    c.toNat == 0xFEFF || c.toNat == 0x2028 || c.toNat == 0x2029

/-- JS `String.prototype.trim()`: strip leading and trailing
whitespace. -/
def jsTrim (s : String) : String :=
  ⟨((s.data.dropWhile isJsWhitespace).reverse.dropWhile
      isJsWhitespace).reverse⟩

/-- Embeds `ChatRoom.fetch` as far as the core is concerned: reject a blank
(or missing) username, otherwise admit the session with the trimmed
username. -/
def fetchConnect (st : List Session) (ws : Nat) (raw : String) (now : String)
    (fails : Nat → Bool) : StepOut :=
  if jsTrim raw = "" then ⟨st, [], []⟩
  else admitSession st ws (jsTrim raw) now fails

/-- The `close` listener: mark the captured session `quit`, delete its
key from the registry, broadcast the updated user list, then broadcast
the "left the chat" notice with the captured username. -/
def closeEvent (st : List Session) (ws : Nat) (uname : String) (now : String)
    (fails : Nat → Bool) : StepOut :=
  let st1 := st.filter (fun s => !(s.ws == ws))
  let (st2, s1) := broadcastUserList st1 fails
  let leaveMsg : ServerMessage :=
    .message "System" (uname ++ " left the chat") now
  let (st3, s2) := broadcast st2 leaveMsg fails
  ⟨st3, s1 ++ s2, [.userList (rosterOf st1), leaveMsg]⟩

/-- The `error` listener: mark the captured session `quit`, delete its
key, broadcast the updated user list.  (No departure notice.) -/
def errorEvent (st : List Session) (ws : Nat) (fails : Nat → Bool) : StepOut :=
  let st1 := st.filter (fun s => !(s.ws == ws))
  let (st2, s1) := broadcastUserList st1 fails
  ⟨st2, s1, [.userList (rosterOf st1)]⟩

/-- An event reaction delivered to one room: connection establishment,
an inbound frame, a close signal, or an error signal.  `uname` on
`frame`/`close` is the username captured by the listener's closure at
admission; `fails` gives the connections whose transport send raises
during this reaction. -/
inductive Event where
  | connect (ws : Nat) (raw : String) (now : String) (fails : Nat → Bool)
  | frame (ws : Nat) (uname : String) (fr : InboundFrame) (now : String)
      (fails : Nat → Bool)
  | close (ws : Nat) (uname : String) (now : String) (fails : Nat → Bool)
  | error (ws : Nat) (fails : Nat → Bool)

/-- Dispatch one event reaction. -/
def step (st : List Session) : Event → StepOut
  | .connect ws raw now fails => fetchConnect st ws raw now fails
  | .frame ws uname fr now fails => handleMessage st ws uname fr now fails
  | .close ws uname now fails => closeEvent st ws uname now fails
  | .error ws fails => errorEvent st ws fails

/-- Run a serialized sequence of event reactions from a registry. -/
def runFrom (st : List Session) : List Event → List Session
  | [] => st
  | e :: tr => runFrom (step st e).state tr

/-- Run a serialized sequence of event reactions from the initial
empty registry (the constructor's `new Map()`). -/
def runEvents (tr : List Event) : List Session :=
  runFrom [] tr

/-! ### Shared helper lemmas and concrete fixtures -/

/-- The all-false failure predicate: no transport send raises. -/
def f0 : Nat → Bool := fun _ => false

/-- A concrete two-session registry used by witnesses. -/
def st0 : List Session := [⟨1, "alice", false⟩, ⟨2, "bob", false⟩]

theorem map_id_of_mem {α : Type _} (l : List α) (g : α → α)
    (h : ∀ a ∈ l, g a = a) : l.map g = l := by
  induction l with
  | nil => rfl
  | cons x xs ih =>
      simp only [List.map_cons]
      rw [h x (List.mem_cons_self x xs),
        ih (fun a ha => h a (List.mem_cons_of_mem _ ha))]

/-- After any `broadcast`, every session left in the registry has
`quit = false`: the sweep removes every marked session. -/
theorem broadcast_state_quit_false (st : List Session) (m : ServerMessage)
    (f : Nat → Bool) : ∀ s ∈ (broadcast st m f).1, s.quit = false := by
  intro s hs
  simp only [broadcast, List.mem_filter] at hs
  simpa using hs.2

/-- With no send failures, `broadcast` leaves a quit-free registry
unchanged and sends the serialized payload to every session. -/
theorem broadcast_no_fail (st : List Session) (m : ServerMessage)
    (f : Nat → Bool) (hq : ∀ s ∈ st, s.quit = false)
    (hf : ∀ s ∈ st, f s.ws = false) :
    broadcast st m f = (st, st.map (fun s => (s.ws, serialize m))) := by
  simp only [broadcast]
  rw [map_id_of_mem _ _ (fun a ha => by rw [hf a ha]; rfl),
    List.filter_eq_self.mpr (fun a ha => by rw [hq a ha]; rfl),
    List.filter_eq_self.mpr (fun a ha => by rw [hf a ha]; rfl)]

/-- On a quit-free registry the roster is just the username column. -/
theorem rosterOf_eq_map (st : List Session)
    (hq : ∀ s ∈ st, s.quit = false) :
    rosterOf st = st.map (fun s => s.username) := by
  simp only [rosterOf]
  rw [List.filter_eq_self.mpr (fun a ha => by rw [hq a ha]; rfl)]

/-! ### Claim theorems -/

/-- C1 (counterexample): a non-text (binary) frame from a registered
session produces zero sends — not the single `error` reply the claim
requires for every malformed frame. -/
theorem malformed_frame_handling_cex :
    (handleMessage st0 1 "alice" InboundFrame.binary "T" f0).sends = [] ∧
    (handleMessage st0 1 "alice" InboundFrame.binary "T" f0).sends.length ≠ 1 ∧
    (handleMessage st0 1 "alice" InboundFrame.binary "T" f0).state = st0 := by
  exact ⟨rfl, by decide, rfl⟩

/-- C1 (amended): an unparsable text frame yields exactly one `error`
reply, to the originating connection only, and the registry (hence the
originating session's registration) is unchanged; a non-text frame is
silently ignored — no message to anyone and an unchanged registry. -/
theorem malformed_frame_handling (st : List Session) (ws : Nat)
    (uname : String) (raw : String) (now : String) (f : Nat → Bool) :
    handleMessage st ws uname (.unparsable raw) now f =
      ⟨st, [(ws, serialize (.error "Invalid message format"))], []⟩ ∧
    handleMessage st ws uname .binary now f = ⟨st, [], []⟩ :=
  ⟨rfl, rfl⟩

/-- C3: with no send failures, a single `broadcast` call performs
exactly one send per registered session, every send carrying the one
serialized wire form `serialize m`. -/
theorem broadcast_no_failure_sends (st : List Session) (m : ServerMessage)
    (f : Nat → Bool) (hf : ∀ s ∈ st, f s.ws = false) :
    (broadcast st m f).2 = st.map (fun s => (s.ws, serialize m)) ∧
    (broadcast st m f).2.length = st.length ∧
    ∀ p ∈ (broadcast st m f).2, p.2 = serialize m := by
  have hq' : ∀ s ∈ st, (!f s.ws) = true := fun a ha => by rw [hf a ha]; rfl
  have h : (broadcast st m f).2 = st.map (fun s => (s.ws, serialize m)) := by
    simp only [broadcast]
    rw [List.filter_eq_self.mpr hq']
  refine ⟨h, by rw [h]; simp, ?_⟩
  intro p hp
  rw [h, List.mem_map] at hp
  obtain ⟨s, _, rfl⟩ := hp
  rfl

/-- C3 witness at a concrete two-session registry. -/
theorem broadcast_no_failure_sends_witness :
    (∀ s ∈ st0, f0 s.ws = false) ∧
    ((broadcast st0 (.error "x") f0).2 =
        st0.map (fun s => (s.ws, serialize (.error "x"))) ∧
      (broadcast st0 (.error "x") f0).2.length = st0.length ∧
      ∀ p ∈ (broadcast st0 (.error "x") f0).2, p.2 = serialize (.error "x")) :=
  ⟨by decide, broadcast_no_failure_sends st0 (.error "x") f0 (by decide)⟩

/-- C5: if the send to a registered session `S` fails during a
`broadcast`, then after the call no session with `S`'s connection is
registered, the next roster is exactly the username column of that
`S`-free registry, and every payload emitted by the call is the
broadcast message itself (no `error` is surfaced to anyone, in
particular not to the sender of the message being broadcast). -/
theorem send_failure_eviction (st : List Session) (m : ServerMessage)
    (f : Nat → Bool) (S : Session) (_hS : S ∈ st) (hfail : f S.ws = true) :
    (∀ s ∈ (broadcast st m f).1, s.ws ≠ S.ws) ∧
    rosterOf (broadcast st m f).1 =
      ((broadcast st m f).1).map (fun s => s.username) ∧
    ∀ p ∈ (broadcast st m f).2, p.2 = serialize m := by
  refine ⟨?_, rosterOf_eq_map _ (broadcast_state_quit_false st m f), ?_⟩
  · intro s hs hws
    simp only [broadcast, List.mem_filter, List.mem_map] at hs
    obtain ⟨⟨t, ht, rfl⟩, hq⟩ := hs
    by_cases hft : f t.ws
    · simp [hft] at hq
    · simp only [hft, if_neg] at hws hq
      rw [if_neg (by simp [hft])] at hws hq
      exact hft (hws ▸ hfail)
  · intro p hp
    simp only [broadcast, List.mem_map] at hp
    obtain ⟨s, _, rfl⟩ := hp
    rfl

/-- C5 witness: ws 2's send fails in a concrete registry. -/
theorem send_failure_eviction_witness :
    ((⟨2, "bob", false⟩ : Session) ∈ st0 ∧ (fun n => n == 2) 2 = true) ∧
    ((∀ s ∈ (broadcast st0 (.error "x") (fun n => n == 2)).1, s.ws ≠ 2) ∧
      rosterOf (broadcast st0 (.error "x") (fun n => n == 2)).1 =
        ((broadcast st0 (.error "x") (fun n => n == 2)).1).map
          (fun s => s.username) ∧
      ∀ p ∈ (broadcast st0 (.error "x") (fun n => n == 2)).2,
        p.2 = serialize (.error "x")) :=
  ⟨⟨by decide, by decide⟩,
    send_failure_eviction st0 (.error "x") (fun n => n == 2)
      ⟨2, "bob", false⟩ (by decide) (by decide)⟩

/-- C7: a parsed `message` frame with non-empty text from a session
with username `uname`, on a quit-free registry with no send failures,
performs exactly one broadcast of a `message` payload carrying
`uname`, the text verbatim, and the timestamp taken at broadcast time;
the serialized payload is sent to every registered connection
(including the sender's, whenever it is registered) and the registry
is unchanged. -/
theorem message_frame_relay (st : List Session) (ws : Nat)
    (uname t : String) (id : Option String) (now : String) (f : Nat → Bool)
    (ht : t ≠ "") (hq : ∀ s ∈ st, s.quit = false)
    (hf : ∀ s ∈ st, f s.ws = false) :
    handleMessage st ws uname (.parsed (some "message") (some t) id) now f =
      ⟨st, st.map (fun s => (s.ws, serialize (.message uname t now))),
        [.message uname t now]⟩ := by
  have htr : ((some "message" == some "message") && truthy (some t)) = true := by
    simp [truthy, ht]
  simp only [handleMessage, htr, if_pos, Option.getD,
    broadcast_no_fail st (.message uname t now) f hq hf]

/-- C7 witness: "hi" from "alice" on the concrete registry. -/
theorem message_frame_relay_witness :
    ("hi" ≠ "" ∧ (∀ s ∈ st0, s.quit = false) ∧ (∀ s ∈ st0, f0 s.ws = false)) ∧
    handleMessage st0 1 "alice" (.parsed (some "message") (some "hi") none)
        "T" f0 =
      ⟨st0, st0.map (fun s => (s.ws, serialize (.message "alice" "hi" "T"))),
        [.message "alice" "hi" "T"]⟩ :=
  ⟨⟨by decide, by decide, by decide⟩,
    message_frame_relay st0 1 "alice" "hi" none "T" f0 (by decide)
      (by decide) (by decide)⟩

/-- C8: a parsed `ping` frame yields exactly one send — a `pong` to
the originating connection echoing `data.id` verbatim — with no
broadcast (the `bcasts` log is empty, so the Broadcaster is bypassed)
and an unchanged registry; no other connection receives anything. -/
theorem ping_frame_pong_reply (st : List Session) (ws : Nat)
    (uname : String) (text : Option String) (id : String) (now : String)
    (f : Nat → Bool) :
    handleMessage st ws uname (.parsed (some "ping") text (some id)) now f =
      ⟨st, [(ws, serialize (.pong now (some id) now))], []⟩ := by
  have h1 : ((some "ping" == some "message") && truthy text) = false := by
    simp
  simp only [handleMessage, h1, show (some "ping" == some "ping") = true by simp]
  simp

/-- C9: a parsed frame whose type is neither `message`-with-truthy-
text nor `ping` produces no sends, no broadcast, and leaves the
registry unchanged. -/
theorem unhandled_frame_no_action (st : List Session) (ws : Nat)
    (uname : String) (ty text id : Option String) (now : String)
    (f : Nat → Bool) (h1 : ¬(ty = some "message" ∧ truthy text = true))
    (h2 : ty ≠ some "ping") :
    handleMessage st ws uname (.parsed ty text id) now f = ⟨st, [], []⟩ := by
  have hb1 : ((ty == some "message") && truthy text) = false := by
    rcases Bool.eq_false_or_eq_true ((ty == some "message") && truthy text)
      with h | h
    · exact absurd (by simpa using h) h1
    · exact h
  have hb2 : (ty == some "ping") = false := by
    simpa using h2
  simp only [handleMessage, hb1, hb2]
  simp

/-- C9 witness: a recognized-but-unhandled `typing` frame, and the
missing-field case `message` with absent text, both at concrete
inputs via the theorem. -/
theorem unhandled_frame_no_action_witness :
    (¬(some "typing" = some "message" ∧ truthy none = true) ∧
      some "typing" ≠ some "ping") ∧
    handleMessage st0 1 "alice" (.parsed (some "typing") none none) "T" f0 =
      ⟨st0, [], []⟩ :=
  ⟨⟨by decide, by decide⟩,
    unhandled_frame_no_action st0 1 "alice" (some "typing") none none "T" f0
      (by decide) (by decide)⟩

/-- C10: the `error` reply produced for an unparsable text frame is a
single constant payload, independent of the offending frame contents:
any two unparsable frames produce identical sends, namely the one
`Invalid message format` error to the originating connection, with the
registry unchanged. -/
theorem error_reply_uniform (st : List Session) (ws : Nat) (uname : String)
    (raw1 raw2 : String) (now : String) (f : Nat → Bool) :
    (handleMessage st ws uname (.unparsable raw1) now f).sends =
      (handleMessage st ws uname (.unparsable raw2) now f).sends ∧
    (handleMessage st ws uname (.unparsable raw1) now f).sends =
      [(ws, serialize (.error "Invalid message format"))] ∧
    (handleMessage st ws uname (.unparsable raw1) now f).state = st :=
  ⟨rfl, rfl, rfl⟩

/-- C2 (counterexample): on an error signal for ws 2 ("bob") in a
two-session registry, the reaction broadcasts exactly one message —
the updated `userList` — and no `message`-type departure notice at
all: the enumerated broadcast log contains no "bob left the chat"
notice of any timestamp. -/
theorem close_error_signal_effects_cex :
    (errorEvent st0 2 f0).bcasts = [.userList ["alice"]] ∧
    (errorEvent st0 2 f0).sends.map Prod.snd =
      [serialize (.userList ["alice"])] := by
  decide

/-- C2 (amended): on a close signal, the session is evicted, the
roster is broadcast, and a departure notice from the synthetic
"System" sender with text "`<username>` left the chat" is broadcast;
on an error signal, the session is evicted and the roster is
broadcast, but no departure notice is sent. -/
theorem close_error_signal_effects (st : List Session) (ws : Nat)
    (uname now : String) (f : Nat → Bool)
    (hq : ∀ s ∈ st, s.quit = false) (hf : ∀ n, f n = false) :
    (closeEvent st ws uname now f).state =
      st.filter (fun s => !(s.ws == ws)) ∧
    (closeEvent st ws uname now f).bcasts =
      [.userList ((st.filter (fun s => !(s.ws == ws))).map
          (fun s => s.username)),
        .message "System" (uname ++ " left the chat") now] ∧
    (errorEvent st ws f).state = st.filter (fun s => !(s.ws == ws)) ∧
    (errorEvent st ws f).bcasts =
      [.userList ((st.filter (fun s => !(s.ws == ws))).map
          (fun s => s.username))] := by
  have hq1 : ∀ s ∈ st.filter (fun s => !(s.ws == ws)), s.quit = false :=
    fun s hs => hq s (List.mem_filter.mp hs).1
  have hf1 : ∀ s ∈ st.filter (fun s => !(s.ws == ws)), f s.ws = false :=
    fun s _ => hf s.ws
  simp only [closeEvent, errorEvent, broadcastUserList,
    broadcast_no_fail _ _ _ hq1 hf1, rosterOf_eq_map _ hq1]
  exact ⟨by trivial, by trivial, by trivial, by trivial⟩

/-- C2 witness: close signal for "bob" at the concrete registry. -/
theorem close_error_signal_effects_witness :
    ((∀ s ∈ st0, s.quit = false) ∧ (∀ n, f0 n = false)) ∧
    ((closeEvent st0 2 "bob" "T" f0).state =
        st0.filter (fun s => !(s.ws == 2)) ∧
      (closeEvent st0 2 "bob" "T" f0).bcasts =
        [.userList ((st0.filter (fun s => !(s.ws == 2))).map
            (fun s => s.username)),
          .message "System" ("bob" ++ " left the chat") "T"] ∧
      (errorEvent st0 2 f0).state = st0.filter (fun s => !(s.ws == 2)) ∧
      (errorEvent st0 2 f0).bcasts =
        [.userList ((st0.filter (fun s => !(s.ws == 2))).map
            (fun s => s.username))]) :=
  ⟨⟨by decide, fun n => rfl⟩,
    close_error_signal_effects st0 2 "bob" "T" f0 (by decide) (fun n => rfl)⟩

/-- The registry after `admitSession` is the registry after the join-notice
broadcast, which follows the user-list broadcast on the stored
session. -/
theorem admitSession_state_eq (st : List Session) (ws : Nat) (uname now : String)
    (f : Nat → Bool) :
    (admitSession st ws uname now f).state =
      (broadcast
        (broadcast (mapSet st ws ⟨ws, uname, false⟩)
          (.userList (rosterOf (mapSet st ws ⟨ws, uname, false⟩))) f).1
        (.message "System" (uname ++ " joined the chat") now) f).1 := rfl

/-- The `message` listener either leaves the registry untouched or
ends in a `broadcast`. -/
theorem handleMessage_state_cases (st : List Session) (ws : Nat)
    (uname : String) (fr : InboundFrame) (now : String) (f : Nat → Bool) :
    (handleMessage st ws uname fr now f).state = st ∨
    ∃ m, (handleMessage st ws uname fr now f).state = (broadcast st m f).1 := by
  cases fr with
  | binary => exact Or.inl rfl
  | unparsable raw => exact Or.inl rfl
  | parsed ty text id =>
      simp only [handleMessage]
      by_cases h : ((ty == some "message") && truthy text) = true
      · rw [if_pos h]
        exact Or.inr ⟨ServerMessage.message uname (text.getD "") now, rfl⟩
      · rw [if_neg h]
        by_cases h2 : (ty == some "ping") = true
        · rw [if_pos h2]
          exact Or.inl rfl
        · rw [if_neg h2]
          exact Or.inl rfl

/-- Every event reaction preserves (and the broadcast-ending ones
re-establish) the all-quit-false property of the registry. -/
theorem step_state_quit_false (st : List Session) (e : Event)
    (hq : ∀ s ∈ st, s.quit = false) :
    ∀ s ∈ (step st e).state, s.quit = false := by
  cases e with
  | connect ws raw now f =>
      simp only [step, fetchConnect]
      by_cases h : jsTrim raw = ""
      · rw [if_pos h]
        exact hq
      · rw [if_neg h, admitSession_state_eq]
        exact broadcast_state_quit_false _ _ _
  | frame ws uname fr now f =>
      rcases handleMessage_state_cases st ws uname fr now f with h | ⟨m, h⟩
      · rw [step, h]
        exact hq
      · rw [step, h]
        exact broadcast_state_quit_false _ _ _
  | close ws uname now f =>
      exact broadcast_state_quit_false
        (broadcast (st.filter (fun s => !(s.ws == ws)))
          (.userList (rosterOf (st.filter (fun s => !(s.ws == ws))))) f).1
        (.message "System" (uname ++ " left the chat") now) f
  | error ws f =>
      exact broadcast_state_quit_false
        (st.filter (fun s => !(s.ws == ws)))
        (.userList (rosterOf (st.filter (fun s => !(s.ws == ws))))) f

/-- C4: after any serialized sequence of event reactions from the
initial empty registry, every registered session has `quit = false`;
moreover the registry left by any single `broadcast` call (the only
place `quit` is ever set) contains no `quit` session either. -/
theorem registry_no_removal_pending :
    (∀ tr : List Event, ∀ s ∈ runEvents tr, s.quit = false) ∧
    (∀ (st : List Session) (m : ServerMessage) (f : Nat → Bool),
      ∀ s ∈ (broadcast st m f).1, s.quit = false) := by
  constructor
  · have key : ∀ (tr : List Event) (st : List Session),
        (∀ s ∈ st, s.quit = false) → ∀ s ∈ runFrom st tr, s.quit = false := by
      intro tr
      induction tr with
      | nil =>
          intro st hq
          simpa [runFrom] using hq
      | cons e tr ih =>
          intro st hq
          exact ih _ (step_state_quit_false st e hq)
    intro tr
    exact key tr [] (by simp)
  · exact broadcast_state_quit_false

/-- A concrete event trace used by witnesses: two admissions, one
chat frame, one close. -/
def tr0 : List Event :=
  [.connect 1 " alice " "T1" f0, .connect 2 "bob" "T2" f0,
    .frame 2 "bob" (.parsed (some "message") (some "hi") none) "T3" f0,
    .close 2 "bob" "T4" f0]

/-- C4 witness: the session surviving the concrete trace, via the
theorem. -/
theorem registry_no_removal_pending_witness :
    (⟨1, "alice", false⟩ : Session) ∈ runEvents tr0 ∧
    (⟨1, "alice", false⟩ : Session).quit = false :=
  ⟨by decide, registry_no_removal_pending.1 tr0 ⟨1, "alice", false⟩ (by decide)⟩

/-! ### Roster refinement: admissions and evictions -/

/-- Abstraction of one registered session: its connection identity
and username. -/
def enc (s : Session) : Nat × String := (s.ws, s.username)

/-- The registry refines an association list of (connection,
username) pairs, with no session marked for removal. -/
abbrev corr (st : List Session) (m : List (Nat × String)) : Prop :=
  st.map enc = m ∧ ∀ s ∈ st, s.quit = false

/-- Effect of a membership event on the abstract member list: a
connect admits the trimmed username, close/error evict the key. -/
def evAbs (m : List (Nat × String)) : Event → List (Nat × String)
  | .connect ws raw _ _ => m ++ [(ws, jsTrim raw)]
  | .close ws _ _ _ => m.filter (fun p => !(p.1 == ws))
  | .error ws _ => m.filter (fun p => !(p.1 == ws))
  | .frame .. => m

/-- Side conditions for a membership event: connects carry a
non-blank username and a fresh connection, no transport send fails,
and inbound frames are excluded. -/
def evOk (m : List (Nat × String)) : Event → Prop
  | .connect ws raw _ f =>
      jsTrim raw ≠ "" ∧ (∀ n, f n = false) ∧ ∀ p ∈ m, p.1 ≠ ws
  | .close _ _ _ f => ∀ n, f n = false
  | .error _ f => ∀ n, f n = false
  | .frame .. => False

/-- Abstract member list after a sequence of membership events. -/
def memAbs (m : List (Nat × String)) : List Event → List (Nat × String)
  | [] => m
  | e :: tr => memAbs (evAbs m e) tr

/-- A sequence of admissions and evictions (with side conditions)
from an abstract member list. -/
def memOk (m : List (Nat × String)) : List Event → Prop
  | [] => True
  | e :: tr => evOk m e ∧ memOk (evAbs m e) tr

/-- One membership event preserves the registry/member-list
correspondence, and its first broadcast is the `userList` carrying
exactly the abstract member list's username column. -/
theorem mem_step_corr (st : List Session) (m : List (Nat × String))
    (e : Event) (hc : corr st m) (he : evOk m e) :
    corr (step st e).state (evAbs m e) ∧
    (step st e).bcasts.head? =
      some (.userList ((evAbs m e).map Prod.snd)) := by
  obtain ⟨henc, hq⟩ := hc
  cases e with
  | connect ws raw now f =>
      obtain ⟨hraw, hf, hfresh⟩ := he
      have hfresh' : ∀ s ∈ st, (s.ws == ws) = false := by
        intro s hs
        have hm : enc s ∈ m := henc ▸ List.mem_map_of_mem enc hs
        simpa [enc] using hfresh _ hm
      have hnot : ¬(st.any (fun t => t.ws == ws) = true) := by
        intro hcon
        obtain ⟨x, hx, hpx⟩ := List.any_eq_true.mp hcon
        rw [hfresh' x hx] at hpx
        cases hpx
      have hst1 : mapSet st ws ⟨ws, jsTrim raw, false⟩ =
          st ++ [⟨ws, jsTrim raw, false⟩] := by
        rw [mapSet, if_neg hnot]
      have hq1 : ∀ s ∈ st ++ [⟨ws, jsTrim raw, false⟩], s.quit = false := by
        intro s hs
        rcases List.mem_append.mp hs with h | h
        · exact hq s h
        · simp at h
          rw [h]
      have hf1 : ∀ s ∈ st ++ [⟨ws, jsTrim raw, false⟩], f s.ws = false :=
        fun s _ => hf s.ws
      have hmap : (st ++ [(⟨ws, jsTrim raw, false⟩ : Session)]).map enc =
          m ++ [(ws, jsTrim raw)] := by
        rw [List.map_append, henc]
        rfl
      have hstate : (step st (.connect ws raw now f)).state =
          st ++ [⟨ws, jsTrim raw, false⟩] := by
        simp only [step, fetchConnect, if_neg hraw, admitSession, broadcastUserList,
          hst1, broadcast_no_fail _ _ _ hq1 hf1]
      have hbc : (step st (.connect ws raw now f)).bcasts =
          [.userList (rosterOf (st ++ [⟨ws, jsTrim raw, false⟩])),
            .message "System" (jsTrim raw ++ " joined the chat") now] := by
        simp only [step, fetchConnect, if_neg hraw, admitSession, broadcastUserList,
          hst1, broadcast_no_fail _ _ _ hq1 hf1]
      refine ⟨⟨?_, ?_⟩, ?_⟩
      · rw [hstate, evAbs]
        exact hmap
      · rw [hstate]
        exact hq1
      · rw [hbc, evAbs, List.head?, rosterOf_eq_map _ hq1, ← hmap,
          List.map_map]
        rfl
  | frame ws uname fr now f =>
      exact he.elim
  | close ws uname now f =>
      have hq1 : ∀ s ∈ st.filter (fun s => !(s.ws == ws)), s.quit = false :=
        fun s hs => hq s (List.mem_filter.mp hs).1
      have hf1 : ∀ s ∈ st.filter (fun s => !(s.ws == ws)), f s.ws = false :=
        fun s _ => he s.ws
      have henc1 : (st.filter (fun s => !(s.ws == ws))).map enc =
          m.filter (fun p => !(p.1 == ws)) := by
        rw [← henc, List.filter_map]
        exact rfl
      have hstate : (step st (.close ws uname now f)).state =
          st.filter (fun s => !(s.ws == ws)) := by
        simp only [step, closeEvent, broadcastUserList,
          broadcast_no_fail _ _ _ hq1 hf1]
      have hbc : (step st (.close ws uname now f)).bcasts =
          [.userList (rosterOf (st.filter (fun s => !(s.ws == ws)))),
            .message "System" (uname ++ " left the chat") now] := by
        simp only [step, closeEvent, broadcastUserList,
          broadcast_no_fail _ _ _ hq1 hf1]
      refine ⟨⟨?_, ?_⟩, ?_⟩
      · rw [hstate, evAbs]
        exact henc1
      · rw [hstate]
        exact hq1
      · rw [hbc, evAbs, List.head?, rosterOf_eq_map _ hq1, ← henc1,
          List.map_map]
        rfl
  | error ws f =>
      have hq1 : ∀ s ∈ st.filter (fun s => !(s.ws == ws)), s.quit = false :=
        fun s hs => hq s (List.mem_filter.mp hs).1
      have hf1 : ∀ s ∈ st.filter (fun s => !(s.ws == ws)), f s.ws = false :=
        fun s _ => he s.ws
      have henc1 : (st.filter (fun s => !(s.ws == ws))).map enc =
          m.filter (fun p => !(p.1 == ws)) := by
        rw [← henc, List.filter_map]
        exact rfl
      have hstate : (step st (.error ws f)).state =
          st.filter (fun s => !(s.ws == ws)) := by
        simp only [step, errorEvent, broadcastUserList,
          broadcast_no_fail _ _ _ hq1 hf1]
      have hbc : (step st (.error ws f)).bcasts =
          [.userList (rosterOf (st.filter (fun s => !(s.ws == ws))))] := by
        simp only [step, errorEvent, broadcastUserList,
          broadcast_no_fail _ _ _ hq1 hf1]
      refine ⟨⟨?_, ?_⟩, ?_⟩
      · rw [hstate, evAbs]
        exact henc1
      · rw [hstate]
        exact hq1
      · rw [hbc, evAbs, List.head?, rosterOf_eq_map _ hq1, ← henc1,
          List.map_map]
        rfl

/-- Running a sequence of membership events preserves the
registry/member-list correspondence. -/
theorem runFrom_corr (tr : List Event) : ∀ (st : List Session)
    (m : List (Nat × String)), corr st m → memOk m tr →
    corr (runFrom st tr) (memAbs m tr) := by
  induction tr with
  | nil =>
      intro st m hc _
      exact hc
  | cons e tr ih =>
      intro st m hc hok
      have h' : evOk m e ∧ memOk (evAbs m e) tr := hok
      exact ih _ _ (mem_step_corr st m e hc h'.1).1 h'.2

/-- Splitting off the last event of a membership sequence. -/
theorem memOk_append (tr : List Event) : ∀ (m : List (Nat × String))
    (e : Event), memOk m (tr ++ [e]) →
    memOk m tr ∧ evOk (memAbs m tr) e ∧
      memAbs m (tr ++ [e]) = evAbs (memAbs m tr) e := by
  induction tr with
  | nil =>
      intro m e h
      have h' : evOk m e ∧ True := h
      exact ⟨trivial, h'.1, rfl⟩
  | cons a tr ih =>
      intro m e h
      have h' : evOk m a ∧ memOk (evAbs m a) (tr ++ [e]) := h
      obtain ⟨hA, hB, hC⟩ := ih _ e h'.2
      exact ⟨⟨h'.1, hA⟩, hB, hC⟩

/-- C6: for every sequence of admissions and evictions and each
membership-changing event in it, the `userList` broadcast issued by
that event carries exactly the trimmed usernames of the sessions
registered after the change (one entry per session, in registry
order), all of which have `quit = false`; the registry's
(connection, username) column equals the abstract member list, whose
usernames are the trimmed admission names. -/
theorem roster_broadcast_exact (tr : List Event) (e : Event)
    (h : memOk [] (tr ++ [e])) :
    (step (runEvents tr) e).bcasts.head? =
      some (.userList ((memAbs [] (tr ++ [e])).map Prod.snd)) ∧
    ((step (runEvents tr) e).state).map enc = memAbs [] (tr ++ [e]) ∧
    ∀ s ∈ (step (runEvents tr) e).state, s.quit = false := by
  obtain ⟨hA, hB, hC⟩ := memOk_append tr [] e h
  have hcorr : corr (runEvents tr) (memAbs [] tr) :=
    runFrom_corr tr [] [] ⟨rfl, by simp⟩ hA
  obtain ⟨⟨henc, hq⟩, hhead⟩ :=
    mem_step_corr (runEvents tr) (memAbs [] tr) e hcorr hB
  rw [hC]
  exact ⟨hhead, henc, hq⟩

/-- C6 witness: admitting " alice " then "bob"; the second admission's
first broadcast is `userList ["alice", "bob"]`. -/
theorem roster_broadcast_exact_witness :
    memOk [] ([Event.connect 1 " alice " "TA" f0] ++
      [Event.connect 2 "bob" "TB" f0]) ∧
    ((step (runEvents [Event.connect 1 " alice " "TA" f0])
        (Event.connect 2 "bob" "TB" f0)).bcasts.head? =
      some (.userList ((memAbs [] ([Event.connect 1 " alice " "TA" f0] ++
          [Event.connect 2 "bob" "TB" f0])).map Prod.snd)) ∧
      ((step (runEvents [Event.connect 1 " alice " "TA" f0])
          (Event.connect 2 "bob" "TB" f0)).state).map enc =
        memAbs [] ([Event.connect 1 " alice " "TA" f0] ++
          [Event.connect 2 "bob" "TB" f0]) ∧
      ∀ s ∈ (step (runEvents [Event.connect 1 " alice " "TA" f0])
          (Event.connect 2 "bob" "TB" f0)).state, s.quit = false) := by
  have hok : memOk [] ([Event.connect 1 " alice " "TA" f0] ++
      [Event.connect 2 "bob" "TB" f0]) :=
    ⟨⟨by decide, fun n => rfl, by decide⟩,
      ⟨by decide, fun n => rfl, by decide⟩, trivial⟩
  exact ⟨hok, roster_broadcast_exact _ _ hok⟩
